import Mathlib

set_option linter.unusedVariables false

/-!
Verification of the advanced-vector repository (src/advanced-vector/vector.h):
a shallow embedding of the RawMemory storage component and the Vector container,
with theorems about the specified properties.

Modelling conventions:
- element type T is modelled as Int; a default-constructed T is 0;
- a raw storage block is identified by a Nat block id; 0 encodes nullptr;
- operations that allocate take an extra argument fresh, the id of the newly
  allocated block (the allocator never reuses a live id);
- live elements are a List Int (slot k of the live range is position k);
  size_ equals the length of that list;
- operations that can throw are modelled with an explicit fault-injection
  argument selecting which element operation throws, returning the resulting
  container state together with leak accounting.
-/

namespace AdvancedVector

/-- RawMemory: owns a raw block of a given capacity. Field buffer is the block
id (0 encodes nullptr), field capacity the number of reserved slots. -/
structure RawMemory where
  buffer : Nat
  capacity : Nat
deriving DecidableEq, Repr

/-- Constructor RawMemory(capacity): buffer_ = Allocate(capacity), where
Allocate returns a new block for n != 0 and nullptr for n = 0. -/
def RawMemory.create (fresh n : Nat) : RawMemory :=
  ⟨if n = 0 then 0 else fresh, n⟩

/-- Move constructor RawMemory(RawMemory&& other): the members start at their
default initializers (nullptr, 0); Deallocate(buffer_) then frees the null
pointer, which releases no block; buffer_ and capacity_ are stolen from other
with std::exchange, resetting other to (nullptr, 0). Returns the constructed
object, the source afterwards, and the list of block ids deallocated. -/
def RawMemory.moveCtor (src : RawMemory) : RawMemory × RawMemory × List Nat :=
  (⟨src.buffer, src.capacity⟩, ⟨0, 0⟩, [])

/-- Move assignment operator=(RawMemory&& rhs): buffer_ and capacity_ are
overwritten with std::exchange of the rhs members. No Deallocate is performed
on the current block of the destination. Returns the destination afterwards,
the source afterwards, and the list of block ids deallocated. -/
def RawMemory.moveAssign (dst src : RawMemory) : RawMemory × RawMemory × List Nat :=
  (⟨src.buffer, src.capacity⟩, ⟨0, 0⟩, [])

/-- Swap: exchanges buffer_ and capacity_ of the two objects. -/
def RawMemory.swap (a b : RawMemory) : RawMemory × RawMemory :=
  (⟨b.buffer, b.capacity⟩, ⟨a.buffer, a.capacity⟩)

/-- Vector: field data is the RawMemory data_ member; field elems lists the
live, constructed elements occupying slots 0 .. size_ - 1, so size_ is
elems.length and Capacity() is data.capacity. -/
structure Vector where
  data : RawMemory
  elems : List Int
deriving DecidableEq, Repr

/-- Size(): returns size_. -/
def Vector.size (v : Vector) : Nat := v.elems.length

/-- Capacity(): returns data_.Capacity(). -/
def Vector.capacity (v : Vector) : Nat := v.data.capacity

/-- Default constructor Vector(): empty, nullptr buffer, capacity 0. -/
def Vector.empty : Vector := ⟨⟨0, 0⟩, []⟩

/-- Reserve(new_capacity): returns immediately when new_capacity <= Capacity().
Otherwise allocates RawMemory new_data(new_capacity), transfers all live
elements into it (uninitialized_move_n when the move constructor is noexcept or
the type is not copyable, otherwise uninitialized_copy_n), destroys the
originals with destroy_n, and swaps buffers, so the elements are unchanged and
the storage is the fresh block. -/
def Vector.reserve (v : Vector) (new_capacity : Nat) (fresh : Nat) : Vector :=
  if new_capacity ≤ v.data.capacity then
    v
  else
    ⟨RawMemory.create fresh new_capacity, v.elems⟩

/-- Resize(new_size): when growing, Reserve(new_size) then
uninitialized_value_construct_n on the slots from size_ to new_size - 1
(default value 0); when shrinking, destroy_n the slots from new_size on;
size_ = new_size at the end. -/
def Vector.resize (v : Vector) (new_size : Nat) (fresh : Nat) : Vector :=
  if new_size > v.elems.length then
    let g := Vector.reserve v new_size fresh
    ⟨g.data, g.elems ++ List.replicate (new_size - g.elems.length) 0⟩
  else
    ⟨v.data, v.elems.take new_size⟩

/-- EmplaceWithDataRelocation(pos, index, args): allocates
RawMemory new_data(Size() == 0 ? 1 : Size() * 2); placement-constructs the new
element at slot index of new_data; transfers the prefix of index old elements
to slots 0 .. index - 1 and the remaining old elements to the slots after the
new element (move preferred, copy fallback); destroy_n the old elements; swaps
buffers. The net element sequence is the old one with the new value inserted
at position index. -/
def Vector.emplaceWithDataRelocation (v : Vector) (index : Nat) (x : Int)
    (fresh : Nat) : Vector :=
  let new_data := RawMemory.create fresh (if v.elems.length = 0 then 1 else v.elems.length * 2)
  ⟨new_data, v.elems.take index ++ x :: v.elems.drop index⟩

/-- Slot-level effect of EmplaceWithoutDataRelocation. When pos is not end():
construct temp_obj from the arguments; placement-construct slot size_ from a
move of the last element (modelled by appending a copy of the last value);
move_backward the range from pos to end() - 1 one slot toward the back, so
every slot j with j > index receives the old value of slot j - 1; move-assign
temp_obj into slot index. When pos is end(): placement-construct the new
element directly into slot size_. -/
def Vector.emplaceSlots (l : List Int) (index : Nat) (x : Int) : List Int :=
  if index ≠ l.length then
    let extended := l ++ [l.getD (l.length - 1) 0]
    let shifted := extended.take (index + 1) ++ (extended.drop index).dropLast
    shifted.set index x
  else
    l ++ [x]

/-- EmplaceWithoutDataRelocation(pos, index, args): works in place on the
existing buffer, see Vector.emplaceSlots. -/
def Vector.emplaceWithoutDataRelocation (v : Vector) (index : Nat) (x : Int) : Vector :=
  ⟨v.data, Vector.emplaceSlots v.elems index x⟩

/-- Emplace(pos, args): index is the distance from begin() to pos; dispatches
on Size() == Capacity() to the relocating or in-place algorithm; ++size_;
returns begin() + index. The returned iterator is modelled as the index. -/
def Vector.emplace (v : Vector) (index : Nat) (x : Int) (fresh : Nat) : Vector × Nat :=
  if v.elems.length = v.data.capacity then
    (Vector.emplaceWithDataRelocation v index x fresh, index)
  else
    (Vector.emplaceWithoutDataRelocation v index x, index)

/-- Insert(pos, value): delegates to Emplace(pos, value). -/
def Vector.insert (v : Vector) (index : Nat) (x : Int) (fresh : Nat) : Vector × Nat :=
  Vector.emplace v index x fresh

/-- EmplaceBack(args): returns *(Emplace(cend(), args)); the reference to the
appended element is modelled as the returned slot index. -/
def Vector.emplaceBack (v : Vector) (x : Int) (fresh : Nat) : Vector × Nat :=
  Vector.emplace v v.elems.length x fresh

/-- PushBack(value): delegates to EmplaceBack(value). -/
def Vector.pushBack (v : Vector) (x : Int) (fresh : Nat) : Vector :=
  (Vector.emplaceBack v x fresh).1

/-- PopBack(): when size_ > 0, destroy_at(end() - 1) and --size_; otherwise
nothing happens. -/
def Vector.popBack (v : Vector) : Vector :=
  if 0 < v.elems.length then ⟨v.data, v.elems.dropLast⟩ else v

/-- Erase(pos): index is the distance from begin() to pos; std::move over the
range from pos + 1 to end() writes each slot j with index <= j < size_ - 1
from slot j + 1, leaving the last slot duplicated; destroy_at(end() - 1)
removes it; --size_; returns begin() + index (modelled as the index). -/
def Vector.erase (v : Vector) (index : Nat) : Vector × Nat :=
  let moved := v.elems.take index ++ v.elems.drop (index + 1)
      ++ v.elems.drop (v.elems.length - 1)
  (⟨v.data, moved.dropLast⟩, index)

/-- Copy assignment operator=(const Vector& rhs), instrumented with element
operation counts. Guarded by the address comparison this != &rhs (argument
same). When rhs.Size() > Capacity(): Vector rhs_copy(rhs) copy-constructs
rhs.Size() elements into a fresh block of capacity rhs.Size(); Swap(rhs_copy);
rhs_copy then holds the old contents of this and destroys all of them when it
goes out of scope. Otherwise, in the existing storage: copy_n assigns the
first min(rhs.Size(), Size()) slots; if rhs.Size() equals that minimum,
destroy_n removes the surplus tail, otherwise uninitialized_copy_n
copy-constructs the missing tail from rhs; size_ = rhs.Size() last. Returns
(result, copy constructions, copy assignments, destructions). -/
def Vector.copyAssignCounted (same : Bool) (a b : Vector) (fresh : Nat) :
    Vector × Nat × Nat × Nat :=
  if same then (a, 0, 0, 0)
  else if b.elems.length > a.data.capacity then
    (⟨RawMemory.create fresh b.elems.length, b.elems⟩, b.elems.length, 0, a.elems.length)
  else
    let min_size := min b.elems.length a.elems.length
    let prefix_copied := b.elems.take min_size ++ a.elems.drop min_size
    if b.elems.length = min_size then
      (⟨a.data, prefix_copied.take b.elems.length⟩, 0, min_size,
        a.elems.length - b.elems.length)
    else
      (⟨a.data, prefix_copied ++ b.elems.drop a.elems.length⟩,
        b.elems.length - a.elems.length, min_size, 0)

/-- Copy assignment, state part only. -/
def Vector.copyAssign (same : Bool) (a b : Vector) (fresh : Nat) : Vector :=
  (Vector.copyAssignCounted same a b fresh).1

/-- Move assignment operator=(Vector&& rhs), instrumented: data_ is
move-assigned from rhs.data_ via RawMemory.moveAssign (which destroys no
element and frees no block), and size_ = std::exchange(rhs.size_, 0). The live
elements the destination held before the call are neither destroyed nor
reachable afterwards. Returns ((this afterwards, rhs afterwards),
element constructions, element destructions). -/
def Vector.moveAssignCounted (a b : Vector) : (Vector × Vector) × Nat × Nat :=
  (((⟨(RawMemory.moveAssign a.data b.data).1, b.elems⟩ : Vector),
    (⟨(RawMemory.moveAssign a.data b.data).2.1, []⟩ : Vector)), 0, 0)

/-- Move assignment, state part only. -/
def Vector.moveAssign (a b : Vector) : Vector × Vector :=
  (Vector.moveAssignCounted a b).1

/-- Swap(other): data_.Swap(other.data_) and std::swap(size_, other.size_),
a full exchange of block and live range. -/
def Vector.swapV (a b : Vector) : Vector × Vector :=
  (⟨b.data, b.elems⟩, ⟨a.data, a.elems⟩)

/-- Destructor ~Vector(): destroy_n(data_.GetAddress(), size_) destroys
exactly the live elements; returns the number of destructions performed. -/
def Vector.dtorDestructions (v : Vector) : Nat := v.elems.length

/-- PushBack instrumented with element constructions and destructions. On the
relocating path (size_ == Capacity()): one construction of the new element,
size_ transfer constructions into the new block, then destroy_n of the size_
originals. On the in-place path at end(): a single placement construction. -/
def Vector.pushBackCounted (v : Vector) (x : Int) (fresh : Nat) :
    Vector × Nat × Nat :=
  if v.elems.length = v.data.capacity then
    (Vector.emplaceWithDataRelocation v v.elems.length x fresh,
      1 + v.elems.length, v.elems.length)
  else
    (Vector.emplaceWithoutDataRelocation v v.elems.length x, 1, 0)

/-- Outcome of a fallible relocating emplace: either success with the new
state, or a propagated exception with the container state afterwards and the
number of constructed elements in the new storage whose destructor never ran
before propagation (the raw block itself is always freed by the RawMemory
destructor). -/
inductive RelocOutcome where
  | ok (after : Vector)
  | threw (after : Vector) (leaked : Nat)
deriving DecidableEq, Repr

/-- EmplaceWithDataRelocation for an element type on the copy-fallback path
(copyable, move not noexcept), with fault injection. newElemThrows: the
placement construction new (new_data + index) T(args...) throws; at that point
nothing else was constructed, the fresh block is freed, the vector untouched.
copyFailAt = some k: the k-th element copy throws (counting the index prefix
copies first, then the suffix copies). uninitialized_copy_n destroys only the
objects it itself constructed before rethrowing: a failure among the prefix
copies leaves the already constructed new element undestroyed (1 leak); a
failure among the suffix copies leaves the new element and the index prefix
copies undestroyed (index + 1 leaks). In every throwing case the members of
the vector are untouched. -/
def Vector.emplaceWithDataRelocationFallible (v : Vector) (index : Nat) (x : Int)
    (fresh : Nat) (newElemThrows : Bool) (copyFailAt : Option Nat) : RelocOutcome :=
  if newElemThrows then
    RelocOutcome.threw v 0
  else
    match copyFailAt with
    | some k =>
      if k < index then
        RelocOutcome.threw v 1
      else if k < v.elems.length then
        RelocOutcome.threw v (index + 1)
      else
        RelocOutcome.ok (Vector.emplaceWithDataRelocation v index x fresh)
    | none => RelocOutcome.ok (Vector.emplaceWithDataRelocation v index x fresh)

/-- Copy assignment with fault injection on the copy-and-swap path. When
rhs.Size() > Capacity() and the k-th copy construction inside
Vector rhs_copy(rhs) throws, uninitialized_copy_n destroys its partial copies,
the fresh block is released, and Swap is never reached, so the destination is
exactly as before the call (carried in the error value). -/
def Vector.copyAssignFallible (a b : Vector) (fresh : Nat)
    (copyFailAt : Option Nat) : Except Vector Vector :=
  if b.elems.length > a.data.capacity then
    match copyFailAt with
    | some k =>
      if k < b.elems.length then Except.error a
      else Except.ok (Vector.copyAssign false a b fresh)
    | none => Except.ok (Vector.copyAssign false a b fresh)
  else Except.ok (Vector.copyAssign false a b fresh)

/-- State after k PushBack calls starting from an empty vector, pushing the
values vals 0, vals 1, ...; call k uses fresh block id k + 1. -/
def Vector.pushSeq (vals : Nat → Int) : Nat → Vector
  | 0 => Vector.empty
  | Nat.succ k => Vector.pushBack (Vector.pushSeq vals k) (vals k) (k + 1)

/-- Lifetime accounting trace that exercises move assignment onto a non-empty
vector: construct a holding one element via PushBack, construct b holding one
element via PushBack, perform a = std::move(b), then run the destructors of
both vectors. Returns (total element constructions, total element
destructions) over the whole program. -/
def Vector.c2LeakTrace : Nat × Nat :=
  let s1 := Vector.pushBackCounted Vector.empty 10 1
  let s2 := Vector.pushBackCounted Vector.empty 20 2
  let m := Vector.moveAssignCounted s1.1 s2.1
  (s1.2.1 + s2.2.1 + m.2.1,
   s1.2.2 + s2.2.2 + m.2.2
     + Vector.dtorDestructions m.1.1 + Vector.dtorDestructions m.1.2)

/-! Helper lemmas about the embedding. -/

/-- Writing x into slot index of the list obtained by keeping the first
index + 1 slots and then the slots from index on produces an insertion of x
at position index. -/
theorem set_take_append_drop (l : List Int) (i : Nat) (x : Int) (h : i < l.length) :
    (l.take (i + 1) ++ l.drop i).set i x = l.take i ++ x :: l.drop i := by
  induction l generalizing i with
  | nil => simp at h
  | cons a t ih =>
    cases i with
    | zero => simp
    | succ j =>
      simp only [List.take_succ_cons, List.drop_succ_cons, List.cons_append, List.set,
        List.append_eq]
      rw [ih j (by simpa using h)]

/-- Net effect of the in-place emplace slot manipulation: insertion of x at
position index. -/
theorem emplaceSlots_eq (l : List Int) (i : Nat) (x : Int) (h : i ≤ l.length) :
    Vector.emplaceSlots l i x = l.take i ++ x :: l.drop i := by
  unfold Vector.emplaceSlots
  by_cases hi : i = l.length
  · rw [if_neg (by simp [hi])]
    subst hi
    simp
  · rw [if_pos hi]
    have hlt : i < l.length := lt_of_le_of_ne h hi
    have h1 : (l ++ [l.getD (l.length - 1) 0]).take (i + 1) = l.take (i + 1) := by
      rw [List.take_append_of_le_length (by omega)]
    have h2 : (l ++ [l.getD (l.length - 1) 0]).drop i
        = l.drop i ++ [l.getD (l.length - 1) 0] := by
      rw [List.drop_append_of_le_length (by omega)]
    simp only [h1, h2]
    rw [List.dropLast_concat]
    exact set_take_append_drop l i x hlt

/-- Element at the seam of an append. -/
theorem getD_append_cons_length (l₁ l₂ : List Int) (x d : Int) :
    (l₁ ++ x :: l₂).getD l₁.length d = x := by
  induction l₁ with
  | nil => rfl
  | cons a t ih => simpa using ih

/-- Emplace inserts the new value at the requested index, on both the
relocating and the in-place path. -/
theorem emplace_elems (v : Vector) (i : Nat) (x : Int) (f : Nat)
    (h : i ≤ v.elems.length) :
    (Vector.emplace v i x f).1.elems = v.elems.take i ++ x :: v.elems.drop i := by
  unfold Vector.emplace Vector.emplaceWithDataRelocation Vector.emplaceWithoutDataRelocation
  split
  · rfl
  · simpa using emplaceSlots_eq v.elems i x h

/-- Emplace returns begin() + index with index computed before the call. -/
theorem emplace_ret (v : Vector) (i : Nat) (x : Int) (f : Nat) :
    (Vector.emplace v i x f).2 = i := by
  unfold Vector.emplace
  split <;> rfl

/-- Capacity after Emplace: doubling rule on the relocating path (with floor
one), unchanged otherwise. -/
theorem emplace_capacity (v : Vector) (i : Nat) (x : Int) (f : Nat) :
    (Vector.emplace v i x f).1.data.capacity =
      if v.elems.length = v.data.capacity then
        (if v.elems.length = 0 then 1 else v.elems.length * 2)
      else v.data.capacity := by
  unfold Vector.emplace Vector.emplaceWithDataRelocation Vector.emplaceWithoutDataRelocation
  split
  · next hc => simp [RawMemory.create, hc]
  · next hc => simp [hc]

/-- PushBack appends the value at the back. -/
theorem pushBack_elems (v : Vector) (x : Int) (f : Nat) :
    (Vector.pushBack v x f).elems = v.elems ++ [x] := by
  unfold Vector.pushBack Vector.emplaceBack
  rw [emplace_elems _ _ _ _ (le_refl _)]
  simp

/-- PushBack increments the length by one. -/
theorem pushBack_size (v : Vector) (x : Int) (f : Nat) :
    (Vector.pushBack v x f).elems.length = v.elems.length + 1 := by
  rw [pushBack_elems]
  simp

/-- Capacity after PushBack. -/
theorem pushBack_capacity (v : Vector) (x : Int) (f : Nat) :
    (Vector.pushBack v x f).data.capacity =
      if v.elems.length = v.data.capacity then
        (if v.elems.length = 0 then 1 else v.elems.length * 2)
      else v.data.capacity := by
  unfold Vector.pushBack Vector.emplaceBack
  exact emplace_capacity v v.elems.length x f

/-- Length after k PushBack calls is k. -/
theorem pushSeq_size (vals : Nat → Int) (k : Nat) :
    (Vector.pushSeq vals k).elems.length = k := by
  induction k with
  | zero => rfl
  | succ n ih =>
    show (Vector.pushBack (Vector.pushSeq vals n) (vals n) (n + 1)).elems.length = n + 1
    rw [pushBack_size, ih]

/-- Erase removes exactly the element at the given index. -/
theorem erase_elems (v : Vector) (i : Nat) (h : i < v.elems.length) :
    (Vector.erase v i).1.elems = v.elems.take i ++ v.elems.drop (i + 1) := by
  show (v.elems.take i ++ v.elems.drop (i + 1)
      ++ v.elems.drop (v.elems.length - 1)).dropLast = _
  have hlen1 : (v.elems.drop (v.elems.length - 1)).length = 1 := by
    simp only [List.length_drop]
    omega
  obtain ⟨a, ha⟩ := List.length_eq_one.mp hlen1
  rw [ha, List.dropLast_concat]

/-- Copy assignment makes the destination elementwise equal to the source in
every branch. -/
theorem copyAssign_elems (a b : Vector) (f : Nat) :
    (Vector.copyAssign false a b f).elems = b.elems := by
  unfold Vector.copyAssign Vector.copyAssignCounted
  simp only [Bool.false_eq_true, if_false]
  split
  · rfl
  · next hle =>
    split
    · next hmin =>
      have h1 : min b.elems.length a.elems.length = b.elems.length := hmin.symm
      show ((b.elems.take (min b.elems.length a.elems.length)
          ++ a.elems.drop (min b.elems.length a.elems.length)).take b.elems.length) = _
      rw [h1, List.take_length]
      exact List.take_left b.elems _
    · next hmin =>
      have h1 : min b.elems.length a.elems.length = a.elems.length := by omega
      show (b.elems.take (min b.elems.length a.elems.length)
          ++ a.elems.drop (min b.elems.length a.elems.length))
          ++ b.elems.drop a.elems.length = _
      rw [h1, List.drop_length, List.append_nil, List.take_append_drop]

/-- Capacity after copy assignment: rhs.Size() when the copy-and-swap branch
reallocates, unchanged otherwise. -/
theorem copyAssign_capacity (a b : Vector) (f : Nat) :
    (Vector.copyAssign false a b f).data.capacity =
      if b.elems.length > a.data.capacity then b.elems.length
      else a.data.capacity := by
  unfold Vector.copyAssign Vector.copyAssignCounted
  simp only [Bool.false_eq_true, if_false]
  split
  · simp [RawMemory.create]
  · split <;> rfl

/-- Copy assignment without reallocation reuses the existing block. -/
theorem copyAssign_data_of_le (a b : Vector) (f : Nat)
    (h : b.elems.length ≤ a.data.capacity) :
    (Vector.copyAssign false a b f).data = a.data := by
  unfold Vector.copyAssign Vector.copyAssignCounted
  simp only [Bool.false_eq_true, if_false]
  split
  · next hgt => exact absurd hgt (by omega)
  · split <;> rfl

/-! Claim theorems. -/

/-- C1 (code_bug evidence): on a full vector holding [3, 4]
(size = capacity = 2), Emplace at the end relocates; the new element is
constructed into the new storage first, and when the first transfer copy of an
existing element then throws, the call propagates with length, capacity and
elements of the vector unchanged, but one constructed element (the new element
already placed in the new storage) is never destroyed: the leak count is 1,
while the claim requires every element already placed in the new storage to be
destroyed before the error propagates. -/
theorem c1_relocation_throw_leaks_constructed_element :
    Vector.emplaceWithDataRelocationFallible ⟨⟨1, 2⟩, [3, 4]⟩ 2 9 5 false (some 0)
      = RelocOutcome.threw ⟨⟨1, 2⟩, [3, 4]⟩ 1 ∧ (1 : Nat) ≠ 0 :=
  ⟨rfl, by decide⟩

/-- C2 (code_bug evidence): building two one-element vectors costs two element
constructions; move-assigning one onto the other destroys nothing (the
RawMemory move assignment overwrites the destination block without destroying
the live element of the destination), and the two destructors then destroy
only one element in total. Constructions minus destructions is 1, not 0, after
both containers are destroyed: the abandoned element of the destination is
leaked. -/
theorem c2_move_assign_onto_nonempty_leaks :
    Vector.c2LeakTrace = (2, 1) ∧ (2 : Nat) - 1 ≠ 0 :=
  ⟨rfl, by decide⟩

/-- C3 counterexample: move-assigning RawMemory source (block 7, capacity 2)
onto a destination that owns block 5 with capacity 3 deallocates nothing; in
particular the non-null destination block 5 is not among the released blocks,
contradicting the claim that the move releases the destination block first. -/
theorem c3_move_assign_does_not_release_destination_block :
    (⟨5, 3⟩ : RawMemory).buffer ≠ 0 ∧
    ¬ (⟨5, 3⟩ : RawMemory).buffer ∈ (RawMemory.moveAssign ⟨5, 3⟩ ⟨7, 2⟩).2.2 := by
  decide

/-- C3 amended: moving one RawMemory into another steals the source block
pointer and capacity and resets the source to empty (null, 0); the move
constructor releases only the default-initialized null pointer of the fresh
destination (freeing no block), and move assignment performs no release at
all, so neither ever deallocates a previously owned destination block. -/
theorem c3_move_transfer_steals_and_resets_without_release (dst src : RawMemory) :
    RawMemory.moveCtor src = (⟨src.buffer, src.capacity⟩, ⟨0, 0⟩, []) ∧
    RawMemory.moveAssign dst src = (⟨src.buffer, src.capacity⟩, ⟨0, 0⟩, []) :=
  ⟨rfl, rfl⟩

/-- C9: self copy-assignment is a no-op: the address comparison guard
this != &rhs short-circuits, leaving elements, length, capacity and storage
address unchanged and performing zero copy constructions, zero copy
assignments and zero destructions. -/
theorem c9_self_copy_assign_noop (v : Vector) (f : Nat) :
    Vector.copyAssignCounted true v v f = (v, 0, 0, 0) :=
  rfl

/-- C4: starting from an empty vector, after the k-th PushBack call Size()
equals k, and the capacity after each call either is unchanged (no
reallocation) or, on reallocation, equals 1 for the first growth from
capacity 0 or exactly twice the previous capacity. -/
theorem c4_pushback_size_and_capacity_growth (vals : Nat → Int) (k : Nat) :
    (Vector.pushSeq vals k).elems.length = k ∧
    ((Vector.pushSeq vals (k + 1)).data.capacity
        = (Vector.pushSeq vals k).data.capacity ∨
      ((Vector.pushSeq vals k).data.capacity = 0 ∧
        (Vector.pushSeq vals (k + 1)).data.capacity = 1) ∨
      (Vector.pushSeq vals (k + 1)).data.capacity
        = 2 * (Vector.pushSeq vals k).data.capacity) := by
  refine ⟨pushSeq_size vals k, ?_⟩
  have hs : (Vector.pushSeq vals k).elems.length = k := pushSeq_size vals k
  have hcap := pushBack_capacity (Vector.pushSeq vals k) (vals k) (k + 1)
  have hstep : Vector.pushSeq vals (k + 1)
      = Vector.pushBack (Vector.pushSeq vals k) (vals k) (k + 1) := rfl
  by_cases h1 : (Vector.pushSeq vals k).elems.length
      = (Vector.pushSeq vals k).data.capacity
  · by_cases h2 : (Vector.pushSeq vals k).elems.length = 0
    · right; left
      refine ⟨by omega, ?_⟩
      rw [hstep, hcap, if_pos h1, if_pos h2]
    · right; right
      rw [hstep, hcap, if_pos h1, if_neg h2]
      omega
  · left
    rw [hstep, hcap, if_neg h1]

/-- C5: Reserve(n) with n at most the current capacity returns immediately,
changing neither the storage block nor the capacity nor any element, and a
second Reserve with the same argument after any Reserve(n) changes nothing. -/
theorem c5_reserve_noop_and_idempotent (v : Vector) (n f g : Nat) :
    (n ≤ v.data.capacity → Vector.reserve v n f = v) ∧
    Vector.reserve (Vector.reserve v n f) n g = Vector.reserve v n f := by
  constructor
  · intro h
    unfold Vector.reserve
    rw [if_pos h]
  · by_cases h : n ≤ v.data.capacity
    · unfold Vector.reserve
      rw [if_pos h, if_pos h]
    · have h1 : Vector.reserve v n f = ⟨RawMemory.create f n, v.elems⟩ := by
        unfold Vector.reserve
        rw [if_neg h]
      rw [h1]
      unfold Vector.reserve
      rw [if_pos (by simp [RawMemory.create])]

/-- C5 witness: on a vector with capacity 3, Reserve(2) is the identity, and
repeating a Reserve(2) after a Reserve(2) changes nothing. -/
theorem c5_reserve_noop_witness :
    Vector.reserve ⟨⟨1, 3⟩, [7]⟩ 2 9 = ⟨⟨1, 3⟩, [7]⟩ ∧
    Vector.reserve (Vector.reserve ⟨⟨1, 3⟩, [7]⟩ 2 9) 2 11
      = Vector.reserve ⟨⟨1, 3⟩, [7]⟩ 2 9 :=
  ⟨(c5_reserve_noop_and_idempotent ⟨⟨1, 3⟩, [7]⟩ 2 9 11).1 (by decide),
    (c5_reserve_noop_and_idempotent ⟨⟨1, 3⟩, [7]⟩ 2 9 11).2⟩

/-- C6: copy assignment leaves the destination elementwise equal to the source
with equal sizes; when the source size exceeds the destination capacity it
builds a full copy (fresh block of capacity rhs.Size()) and swaps it in, and
the destination is unaffected when a copy construction throws there; otherwise
it reuses the existing block (address and capacity unchanged), copy-assigning
the common prefix and destroying the surplus tail or copy-constructing the
missing tail. -/
theorem c6_copy_assign_behavior (a b : Vector) (f : Nat) :
    (Vector.copyAssign false a b f).elems = b.elems ∧
    (Vector.copyAssign false a b f).elems.length = b.elems.length ∧
    (b.elems.length > a.data.capacity →
      (Vector.copyAssign false a b f).data.capacity = b.elems.length) ∧
    (b.elems.length ≤ a.data.capacity →
      (Vector.copyAssign false a b f).data = a.data) ∧
    (∀ k, k < b.elems.length → b.elems.length > a.data.capacity →
      Vector.copyAssignFallible a b f (some k) = Except.error a) := by
  refine ⟨copyAssign_elems a b f, ?_, ?_, ?_, ?_⟩
  · rw [copyAssign_elems a b f]
  · intro h
    rw [copyAssign_capacity a b f, if_pos h]
  · intro h
    exact copyAssign_data_of_le a b f h
  · intro k hk hgt
    unfold Vector.copyAssignFallible
    rw [if_pos hgt]
    simp only [if_pos hk]

/-- C6 witness: assigning a two-element source to a one-element destination of
capacity 1 reallocates to capacity 2 and copies both elements; a throwing copy
in the copy-and-swap branch leaves the destination untouched. -/
theorem c6_copy_assign_behavior_witness :
    (Vector.copyAssign false ⟨⟨1, 1⟩, [5]⟩ ⟨⟨2, 7⟩, [7, 8]⟩ 9).elems = [7, 8] ∧
    (Vector.copyAssign false ⟨⟨1, 1⟩, [5]⟩ ⟨⟨2, 7⟩, [7, 8]⟩ 9).data.capacity = 2 ∧
    Vector.copyAssignFallible ⟨⟨1, 1⟩, [5]⟩ ⟨⟨2, 7⟩, [7, 8]⟩ 9 (some 0)
      = Except.error ⟨⟨1, 1⟩, [5]⟩ :=
  ⟨(c6_copy_assign_behavior ⟨⟨1, 1⟩, [5]⟩ ⟨⟨2, 7⟩, [7, 8]⟩ 9).1,
    (c6_copy_assign_behavior ⟨⟨1, 1⟩, [5]⟩ ⟨⟨2, 7⟩, [7, 8]⟩ 9).2.2.1 (by decide),
    (c6_copy_assign_behavior ⟨⟨1, 1⟩, [5]⟩ ⟨⟨2, 7⟩, [7, 8]⟩ 9).2.2.2.2 0
      (by decide) (by decide)⟩

/-- C7: for a position strictly inside the live range, Erase removes the
element at that index by move-assigning the following elements one slot toward
the front and destroying the final slot, decrementing the length by one and
leaving the storage block and capacity untouched; in particular erasing index
1 of [1, 2, 3, 4] yields [1, 3, 4] with size 3 and unchanged capacity. -/
theorem c7_erase_shifts_left (v : Vector) (i : Nat) (h : i < v.elems.length) :
    (Vector.erase v i).1.elems = v.elems.take i ++ v.elems.drop (i + 1) ∧
    (Vector.erase v i).1.elems.length = v.elems.length - 1 ∧
    (Vector.erase v i).1.data = v.data ∧
    Vector.erase ⟨⟨1, 4⟩, [1, 2, 3, 4]⟩ 1 = (⟨⟨1, 4⟩, [1, 3, 4]⟩, 1) := by
  refine ⟨erase_elems v i h, ?_, rfl, by decide⟩
  rw [erase_elems v i h]
  simp only [List.length_append, List.length_take, List.length_drop]
  omega

/-- C7 witness: the concrete erase of index 1 from [1, 2, 3, 4]. -/
theorem c7_erase_shifts_left_witness :
    (Vector.erase ⟨⟨1, 4⟩, [1, 2, 3, 4]⟩ 1).1.elems = [1, 3, 4] ∧
    (Vector.erase ⟨⟨1, 4⟩, [1, 2, 3, 4]⟩ 1).1.elems.length = 3 ∧
    (Vector.erase ⟨⟨1, 4⟩, [1, 2, 3, 4]⟩ 1).1.data = ⟨1, 4⟩ ∧
    Vector.erase ⟨⟨1, 4⟩, [1, 2, 3, 4]⟩ 1 = (⟨⟨1, 4⟩, [1, 3, 4]⟩, 1) :=
  c7_erase_shifts_left ⟨⟨1, 4⟩, [1, 2, 3, 4]⟩ 1 (by decide)

/-- C8 counterexample: move-assigning an empty vector of capacity 0 onto a
vector of capacity 2 is a single operation that is not a copy-and-swap
reallocation, yet it decreases Capacity() from 2 to 0, contradicting the claim
that capacity never decreases except under copy-and-swap reallocation. -/
theorem c8_move_assign_decreases_capacity :
    (Vector.moveAssign ⟨⟨1, 2⟩, [5]⟩ ⟨⟨0, 0⟩, []⟩).1.data.capacity
      < (⟨⟨1, 2⟩, [5]⟩ : Vector).data.capacity := by
  decide

/-- C8 amended: Size() never exceeds Capacity() after any operation, and
Capacity() never decreases across Reserve, Resize, Emplace (hence Insert,
PushBack, EmplaceBack), PopBack, Erase, or copy assignment (including its
copy-and-swap reallocation, which replaces buffer and length and only ever
grows capacity); Capacity() can decrease only when an operation replaces the
buffer and length wholesale without reallocating, namely move assignment
(which adopts the source state verbatim) or Swap (which exchanges the two
states). -/
theorem c8_size_le_capacity_and_growth (a b : Vector) (n f i : Nat) (x : Int)
    (ha : a.elems.length ≤ a.data.capacity)
    (hb : b.elems.length ≤ b.data.capacity)
    (hi : i ≤ a.elems.length) :
    ((Vector.reserve a n f).elems.length ≤ (Vector.reserve a n f).data.capacity ∧
      a.data.capacity ≤ (Vector.reserve a n f).data.capacity) ∧
    ((Vector.resize a n f).elems.length ≤ (Vector.resize a n f).data.capacity ∧
      a.data.capacity ≤ (Vector.resize a n f).data.capacity) ∧
    ((Vector.emplace a i x f).1.elems.length
        ≤ (Vector.emplace a i x f).1.data.capacity ∧
      a.data.capacity ≤ (Vector.emplace a i x f).1.data.capacity) ∧
    ((Vector.popBack a).elems.length ≤ (Vector.popBack a).data.capacity ∧
      (Vector.popBack a).data.capacity = a.data.capacity) ∧
    ((Vector.erase a i).1.elems.length ≤ (Vector.erase a i).1.data.capacity ∧
      (Vector.erase a i).1.data.capacity = a.data.capacity) ∧
    ((Vector.copyAssign false a b f).elems.length
        ≤ (Vector.copyAssign false a b f).data.capacity ∧
      a.data.capacity ≤ (Vector.copyAssign false a b f).data.capacity) ∧
    ((Vector.moveAssign a b).1 = b ∧
      (Vector.moveAssign a b).2.elems.length
        ≤ (Vector.moveAssign a b).2.data.capacity) ∧
    ((Vector.swapV a b).1 = b ∧ (Vector.swapV a b).2 = a) := by
  refine ⟨?_, ?_, ?_, ?_, ?_, ?_, ⟨rfl, by simp [Vector.moveAssign,
    Vector.moveAssignCounted, RawMemory.moveAssign]⟩, rfl, rfl⟩
  · unfold Vector.reserve
    split
    · exact ⟨ha, le_refl _⟩
    · next h =>
      refine ⟨?_, ?_⟩ <;> simp [RawMemory.create] <;> omega
  · unfold Vector.resize Vector.reserve
    split
    · next hgrow =>
      split
      · next hle =>
        simp only [List.length_append, List.length_replicate]
        exact ⟨by omega, le_refl _⟩
      · next hgt =>
        simp only [List.length_append, List.length_replicate, RawMemory.create]
        exact ⟨by omega, by omega⟩
    · next hsh =>
      simp only [List.length_take]
      exact ⟨by omega, le_refl _⟩
  · have he := emplace_elems a i x f hi
    have hc := emplace_capacity a i x f
    have hl : (Vector.emplace a i x f).1.elems.length = a.elems.length + 1 := by
      rw [he]
      simp only [List.length_append, List.length_take, List.length_cons,
        List.length_drop]
      omega
    rw [hl, hc]
    split
    · next hfull =>
      split
      · next h0 => omega
      · next h0 => omega
    · next hfull => omega
  · unfold Vector.popBack
    split
    · next h =>
      refine ⟨?_, rfl⟩
      simp only [List.length_dropLast]
      omega
    · exact ⟨ha, rfl⟩
  · refine ⟨?_, rfl⟩
    show (Vector.erase a i).1.elems.length ≤ a.data.capacity
    unfold Vector.erase
    simp only [List.length_dropLast, List.length_append, List.length_take,
      List.length_drop]
    omega
  · have he := copyAssign_elems a b f
    have hc := copyAssign_capacity a b f
    have hl : (Vector.copyAssign false a b f).elems.length = b.elems.length := by
      rw [he]
    rw [hl, hc]
    split <;> omega

/-- C8 witness: the amended invariants at a vector of size 1, capacity 2 and a
second vector of size 1, capacity 3, with reserve and resize argument 4 and
emplace and erase position 1. -/
theorem c8_size_le_capacity_and_growth_witness :
    ((Vector.reserve ⟨⟨1, 2⟩, [5]⟩ 4 9).elems.length
        ≤ (Vector.reserve ⟨⟨1, 2⟩, [5]⟩ 4 9).data.capacity ∧
      (⟨⟨1, 2⟩, [5]⟩ : Vector).data.capacity
        ≤ (Vector.reserve ⟨⟨1, 2⟩, [5]⟩ 4 9).data.capacity) ∧
    ((Vector.resize ⟨⟨1, 2⟩, [5]⟩ 4 9).elems.length
        ≤ (Vector.resize ⟨⟨1, 2⟩, [5]⟩ 4 9).data.capacity ∧
      (⟨⟨1, 2⟩, [5]⟩ : Vector).data.capacity
        ≤ (Vector.resize ⟨⟨1, 2⟩, [5]⟩ 4 9).data.capacity) ∧
    ((Vector.emplace ⟨⟨1, 2⟩, [5]⟩ 1 0 9).1.elems.length
        ≤ (Vector.emplace ⟨⟨1, 2⟩, [5]⟩ 1 0 9).1.data.capacity ∧
      (⟨⟨1, 2⟩, [5]⟩ : Vector).data.capacity
        ≤ (Vector.emplace ⟨⟨1, 2⟩, [5]⟩ 1 0 9).1.data.capacity) ∧
    ((Vector.popBack ⟨⟨1, 2⟩, [5]⟩).elems.length
        ≤ (Vector.popBack ⟨⟨1, 2⟩, [5]⟩).data.capacity ∧
      (Vector.popBack ⟨⟨1, 2⟩, [5]⟩).data.capacity
        = (⟨⟨1, 2⟩, [5]⟩ : Vector).data.capacity) ∧
    ((Vector.erase ⟨⟨1, 2⟩, [5]⟩ 1).1.elems.length
        ≤ (Vector.erase ⟨⟨1, 2⟩, [5]⟩ 1).1.data.capacity ∧
      (Vector.erase ⟨⟨1, 2⟩, [5]⟩ 1).1.data.capacity
        = (⟨⟨1, 2⟩, [5]⟩ : Vector).data.capacity) ∧
    ((Vector.copyAssign false ⟨⟨1, 2⟩, [5]⟩ ⟨⟨2, 3⟩, [6]⟩ 9).elems.length
        ≤ (Vector.copyAssign false ⟨⟨1, 2⟩, [5]⟩ ⟨⟨2, 3⟩, [6]⟩ 9).data.capacity ∧
      (⟨⟨1, 2⟩, [5]⟩ : Vector).data.capacity
        ≤ (Vector.copyAssign false ⟨⟨1, 2⟩, [5]⟩ ⟨⟨2, 3⟩, [6]⟩ 9).data.capacity) ∧
    ((Vector.moveAssign ⟨⟨1, 2⟩, [5]⟩ ⟨⟨2, 3⟩, [6]⟩).1 = ⟨⟨2, 3⟩, [6]⟩ ∧
      (Vector.moveAssign ⟨⟨1, 2⟩, [5]⟩ ⟨⟨2, 3⟩, [6]⟩).2.elems.length
        ≤ (Vector.moveAssign ⟨⟨1, 2⟩, [5]⟩ ⟨⟨2, 3⟩, [6]⟩).2.data.capacity) ∧
    ((Vector.swapV ⟨⟨1, 2⟩, [5]⟩ ⟨⟨2, 3⟩, [6]⟩).1 = ⟨⟨2, 3⟩, [6]⟩ ∧
      (Vector.swapV ⟨⟨1, 2⟩, [5]⟩ ⟨⟨2, 3⟩, [6]⟩).2 = ⟨⟨1, 2⟩, [5]⟩) :=
  c8_size_le_capacity_and_growth ⟨⟨1, 2⟩, [5]⟩ ⟨⟨2, 3⟩, [6]⟩ 4 9 1 0
    (by decide) (by decide) (by decide)

/-- C10: Emplace and Insert return the iterator begin() + index with the index
of pos computed before the call, and the element there is the newly inserted
value; EmplaceBack returns a reference to the newly appended element (the slot
at the old size now holds the value); Erase returns the iterator to the slot
that held the erased element, which, whenever an element followed it, now
holds that following element. -/
theorem c10_return_values (v : Vector) (i : Nat) (x : Int) (f : Nat)
    (hi : i ≤ v.elems.length) :
    (Vector.emplace v i x f).2 = i ∧
    (Vector.emplace v i x f).1.elems.getD i 0 = x ∧
    (Vector.insert v i x f).2 = i ∧
    (Vector.emplaceBack v x f).1.elems.getD v.elems.length 0 = x ∧
    (Vector.erase v i).2 = i ∧
    (i + 1 < v.elems.length →
      (Vector.erase v i).1.elems.getD i 0 = v.elems.getD (i + 1) 0) := by
  have hgetD : ∀ (l₂ : List Int) (y : Int),
      (v.elems.take i ++ y :: l₂).getD i 0 = y := by
    intro l₂ y
    have h1 : (v.elems.take i).length = i := by
      simp only [List.length_take]
      omega
    calc (v.elems.take i ++ y :: l₂).getD i 0
        = (v.elems.take i ++ y :: l₂).getD (v.elems.take i).length 0 := by rw [h1]
      _ = y := getD_append_cons_length _ _ _ _
  refine ⟨emplace_ret v i x f, ?_, emplace_ret v i x f, ?_, rfl, ?_⟩
  · rw [emplace_elems v i x f hi]
    exact hgetD _ _
  · unfold Vector.emplaceBack
    rw [emplace_elems v v.elems.length x f (le_refl _)]
    rw [List.take_length]
    exact getD_append_cons_length _ _ _ _
  · intro hlt
    rw [erase_elems v i (by omega)]
    have hd : v.elems.drop (i + 1)
        = v.elems.getD (i + 1) 0 :: v.elems.drop (i + 2) := by
      rw [List.getD_eq_getElem v.elems 0 hlt]
      exact List.drop_eq_getElem_cons hlt
    rw [hd]
    exact hgetD _ _

/-- C10 witness: emplacing 9 at index 1 of [1, 2, 3, 4] returns index 1 where
9 now sits, EmplaceBack appends at slot 4, and erasing index 1 returns index
1, which then holds the old element of index 2. -/
theorem c10_return_values_witness :
    (Vector.emplace ⟨⟨1, 4⟩, [1, 2, 3, 4]⟩ 1 9 7).2 = 1 ∧
    (Vector.emplace ⟨⟨1, 4⟩, [1, 2, 3, 4]⟩ 1 9 7).1.elems.getD 1 0 = 9 ∧
    (Vector.insert ⟨⟨1, 4⟩, [1, 2, 3, 4]⟩ 1 9 7).2 = 1 ∧
    (Vector.emplaceBack ⟨⟨1, 4⟩, [1, 2, 3, 4]⟩ 9 7).1.elems.getD
      ([1, 2, 3, 4] : List Int).length 0 = 9 ∧
    (Vector.erase ⟨⟨1, 4⟩, [1, 2, 3, 4]⟩ 1).2 = 1 ∧
    (1 + 1 < ([1, 2, 3, 4] : List Int).length →
      (Vector.erase ⟨⟨1, 4⟩, [1, 2, 3, 4]⟩ 1).1.elems.getD 1 0
        = ([1, 2, 3, 4] : List Int).getD (1 + 1) 0) :=
  c10_return_values ⟨⟨1, 4⟩, [1, 2, 3, 4]⟩ 1 9 7 (by decide)

end AdvancedVector
